import Mathlib

/-!
Verification development for `kubetest/manifest.py`: a schema-driven,
reflective deserializer turning parsed YAML documents into typed object
graphs.  The Python source is shallowly embedded below:

* `Value` models the Python runtime values that flow through the module
  (parsed YAML scalars, lists and dicts, plus constructed API objects).
* `KType` models a Kubernetes client model class as its schema descriptor:
  the class name, its `attribute_map` (internal field name to document key)
  and its `swagger_types`/`openapi_types` table (internal field name to
  type-signature string).  The two table attributes play the same role in
  the source (one of them is present on any generated class) and are
  modelled as the single `types` table.
* The process-wide namespaces `kubernetes.client.models.__dict__` /
  `kubernetes.client.__dict__` are modelled as one association list
  `reg : List (String × KType)` from class name to descriptor, passed
  explicitly.  (The real namespaces also hold non-model entries; only the
  model classes are relevant to the embedded code paths.)  The
  `builtins.__dict__` namespace consulted by `cast_value` is likewise an
  explicit parameter `bi : List (String × Builtin)`; the wrappers fix it
  to the sample table `pythonBuiltins`.
* Python exceptions become the `Err` type and fallible functions return
  `Except Err _`; an uncaught exception anywhere aborts the whole call,
  matching Python propagation.
* Recursion in `new_object`/`cast_value` descends through strict
  sub-values of the configuration, so it is implemented with an explicit
  fuel argument (`new_objectF`) and wrappers that supply the always
  sufficient fuel `Value.size config + 1`; `new_objectF_stable` proves the
  result does not depend on the fuel once it exceeds `Value.size config`.
-/

namespace Kubetest

/-- A Python runtime value as used by the manifest loader: `null` is
Python `None`, `float` is modelled as an exact rational (conversions the
loader performs on in-range decimal input are exact; no float arithmetic
occurs), `map` is a dict as an insertion-ordered association list, and
`obj` is a constructed Kubernetes API object: the class name together
with the constructor arguments that `new_object` passed to it. -/
inductive Value where
  | null : Value
  | bool (b : Bool) : Value
  | int (n : Int) : Value
  | float (q : Rat) : Value
  | str (s : String) : Value
  | list (xs : List Value) : Value
  | map (kvs : List (Value × Value)) : Value
  | obj (typeName : String) (fields : List (String × Value)) : Value

/-- Python exceptions raised by the embedded code paths. -/
inductive Err where
  | valueError (msg : String)
  | typeError (msg : String)
  | attributeError (msg : String)
  | keyError (msg : String)
  | recursionError (msg : String)
  deriving DecidableEq

mutual

/-- Structural size of a value; used as a fuel bound for the recursive
object builder (strictly decreases along every builder recursion). -/
def Value.size : Value → Nat
  | .null => 1
  | .bool _ => 1
  | .int _ => 1
  | .float _ => 1
  | .str _ => 1
  | .list xs => 1 + sizeList xs
  | .map kvs => 1 + sizePairs kvs
  | .obj _ fs => 1 + sizeFields fs

/-- Size of a list of values. -/
def sizeList : List Value → Nat
  | [] => 0
  | x :: rest => x.size + sizeList rest

/-- Size of a list of key/value pairs. -/
def sizePairs : List (Value × Value) → Nat
  | [] => 0
  | (a, b) :: rest => a.size + b.size + sizePairs rest

/-- Size of a list of named fields. -/
def sizeFields : List (String × Value) → Nat
  | [] => 0
  | (_, v) :: rest => v.size + sizeFields rest

end

/-- First-match lookup in a string-keyed association list (Python dict
access; keys are unique in every dict the source builds). -/
def lookupAssocS {α : Type} : List (String × α) → String → Option α
  | [], _ => none
  | (k, v) :: rest, key => if k = key then some v else lookupAssocS rest key

/-- Python `d[key]`-style lookup on a dict value whose keys may be
arbitrary values: the first pair whose key is the string `key` wins
(non-string keys never equal a string key). -/
def pyLookup : List (Value × Value) → String → Option Value
  | [], _ => none
  | (a, b) :: rest, key =>
    match a with
    | .str s => if s = key then some b else pyLookup rest key
    | _ => pyLookup rest key

/-- Python `v is None`. -/
def isNull : Value → Bool
  | .null => true
  | _ => false

/-- Python `config.get(key)`: absent keys give `none`; calling `.get` on a
non-dict raises `AttributeError`. -/
def pyGet (config : Value) (key : String) : Except Err (Option Value) :=
  match config with
  | .map kvs => .ok (pyLookup kvs key)
  | _ => .error (Err.attributeError "object has no attribute get")

/-- Effectful map over a list in the `Except` monad, stopping at the first
error (a Python list comprehension whose body may raise). -/
def mapME {α β : Type} (f : α → Except Err β) : List α → Except Err (List β)
  | [] => .ok []
  | x :: rest =>
    match f x with
    | .error e => .error e
    | .ok y =>
      match mapME f rest with
      | .error e => .error e
      | .ok ys => .ok (y :: ys)

/-- Effectful map over dict items, casting each key with `fk` and each
value with `fv` (a Python dict comprehension whose body may raise).  The
result keeps all pairs in order; the source dict comprehension would
deduplicate colliding cast keys, a situation the spec leaves undefined
and no embedded code path relies on. -/
def mapPairsE (fk fv : Value → Except Err Value) :
    List (Value × Value) → Except Err (List (Value × Value))
  | [] => .ok []
  | (a, b) :: rest =>
    match fk a with
    | .error e => .error e
    | .ok a2 =>
      match fv b with
      | .error e => .error e
      | .ok b2 =>
        match mapPairsE fk fv rest with
        | .error e => .error e
        | .ok rest2 => .ok ((a2, b2) :: rest2)

/-- The single-quote character, used by Python `repr` of strings. -/
def squote : String := String.singleton (Char.ofNat 39)

/-- The space character. -/
def spaceChar : Char := Char.ofNat 32

/-- Fuelled rendering of Python `repr` (enough structure for the embedded
paths; container repr of fancy escapes is approximated: string repr does
not escape embedded quotes, floats render as `num/den`, constructed
objects render as their class name — none of which any claim relies on). -/
def pyReprF : Nat → Value → String
  | 0, _ => ""
  | n + 1, v =>
    match v with
    | .null => "None"
    | .bool b => if b then "True" else "False"
    | .int i => toString i
    | .float q => toString q.num ++ "/" ++ toString q.den
    | .str s => squote ++ s ++ squote
    | .list xs => "[" ++ String.intercalate ", " (xs.map (pyReprF n)) ++ "]"
    | .map kvs =>
        "\x7b" ++
          String.intercalate ", "
            (kvs.map (fun p => pyReprF n p.1 ++ ": " ++ pyReprF n p.2)) ++
          "\x7d"
    | .obj name _ => name

/-- Python `repr(v)`. -/
def pyRepr (v : Value) : String := pyReprF v.size v

/-- Python `str(v)`: identity on strings, `repr` otherwise (which is what
`str` produces on the scalar and container values reaching this path). -/
def pyStr (v : Value) : String :=
  match v with
  | .str s => s
  | other => pyRepr other

/-- Python truthiness, as used by `bool(v)`. -/
def pyTruthy : Value → Bool
  | .null => false
  | .bool b => b
  | .int n => n ≠ 0
  | .float q => q ≠ 0
  | .str s => s ≠ ""
  | .list xs => !xs.isEmpty
  | .map kvs => !kvs.isEmpty
  | .obj _ _ => true

/-- Parse a decimal integer literal the way Python `int(str)` does:
surrounding whitespace, an optional sign, then at least one digit.
(Python additionally accepts underscore digit grouping and non-ASCII
digits; not modelled, and not exercised by any claim.) -/
def parseIntPy (s : String) : Option Int :=
  let core := ((s.data.dropWhile Char.isWhitespace).reverse.dropWhile
      Char.isWhitespace).reverse
  let signed : Option (Bool × List Char) :=
    match core with
    | '+' :: rest => some (false, rest)
    | '-' :: rest => some (true, rest)
    | rest => some (false, rest)
  match signed with
  | some (neg, ds) =>
    if ds ≠ [] ∧ ds.all Char.isDigit then
      let n : Nat := ds.foldl (fun a c => a * 10 + (c.toNat - 48)) 0
      some (if neg then -(n : Int) else (n : Int))
    else none
  | none => none

/-- Truncation toward zero, as Python `int(float)` rounds. -/
def ratTrunc (q : Rat) : Int := if q < 0 then -((-q).floor) else q.floor

/-- Python `int(v)`. -/
def pyInt : Value → Except Err Value
  | .int n => .ok (.int n)
  | .bool b => .ok (.int (if b then 1 else 0))
  | .float q => .ok (.int (ratTrunc q))
  | .str s =>
    match parseIntPy s with
    | some n => .ok (.int n)
    | none =>
      .error (.valueError
        ("invalid literal for int() with base 10: " ++ squote ++ s ++ squote))
  | _ => .error (.typeError "int() argument must be a string or a number")

/-- Parse a decimal literal for Python `float(str)`: whitespace, optional
sign, digits with an optional fractional part.  (Exponents, `inf`/`nan`
and underscore grouping are not modelled; no claim exercises them.) -/
def parseFloatPy (s : String) : Option Rat :=
  let core := ((s.data.dropWhile Char.isWhitespace).reverse.dropWhile
      Char.isWhitespace).reverse
  let signed : Bool × List Char :=
    match core with
    | '+' :: rest => (false, rest)
    | '-' :: rest => (true, rest)
    | rest => (false, rest)
  let (neg, ds) := signed
  let intPart := ds.takeWhile (fun c => c ≠ '.')
  let rest := ds.dropWhile (fun c => c ≠ '.')
  let fracPart : Option (List Char) :=
    match rest with
    | [] => some []
    | '.' :: fs => some fs
    | _ => none
  match fracPart with
  | none => none
  | some fs =>
    if (intPart ≠ [] ∨ fs ≠ []) ∧ intPart.all Char.isDigit ∧ fs.all Char.isDigit then
      let ip : Nat := intPart.foldl (fun a c => a * 10 + (c.toNat - 48)) 0
      let fp : Nat := fs.foldl (fun a c => a * 10 + (c.toNat - 48)) 0
      let q : Rat := (ip : Rat) + (fp : Rat) / ((10 : Rat) ^ fs.length)
      some (if neg then -q else q)
    else none

/-- Python `float(v)`. -/
def pyFloat : Value → Except Err Value
  | .float q => .ok (.float q)
  | .int n => .ok (.float n)
  | .bool b => .ok (.float (if b then 1 else 0))
  | .str s =>
    match parseFloatPy s with
    | some q => .ok (.float q)
    | none => .error (.valueError ("could not convert string to float: " ++ s))
  | _ => .error (.typeError "float() argument must be a string or a number")

/-- Python `list(v)`: copies a list, iterates a string into one-character
strings, iterates a dict into its keys; everything else is not iterable. -/
def pyListCast : Value → Except Err Value
  | .list xs => .ok (.list xs)
  | .str s => .ok (.list (s.data.map (fun c => Value.str (String.singleton c))))
  | .map kvs => .ok (.list (kvs.map Prod.fst))
  | _ => .error (.typeError "object is not iterable")

/-- Helper for `pyDictCast`: interpret a list as a sequence of two-element
sequences. -/
def toPairs : List Value → Option (List (Value × Value))
  | [] => some []
  | Value.list [a, b] :: rest =>
    match toPairs rest with
    | some ps => some ((a, b) :: ps)
    | none => none
  | _ => none

/-- Python `dict(v)`: copies a dict, or builds one from a sequence of
pairs.  (As in `mapPairsE`, duplicate keys are kept rather than
deduplicated; the source paths never feed duplicates here.) -/
def pyDictCast : Value → Except Err Value
  | .map kvs => .ok (.map kvs)
  | .list xs =>
    match toPairs xs with
    | some ps => .ok (.map ps)
    | none => .error (.typeError "cannot convert sequence to dict")
  | _ => .error (.typeError "object is not a mapping")

/-- One entry of `builtins.__dict__`, as a bare type signature can name
it.  `cast_value` consults the whole builtins namespace, which holds the
type constructors below and dozens of other callables and constants;
`objectB` is the generic `object` sentinel, which `cast_value`
special-cases as a passthrough, and `printB` is the builtin `print`
function, representative of the non-type entries (calling it returns
`None`).  Because the real namespace is large and interpreter-defined,
the caster takes the builtins table as an explicit parameter, exactly as
it takes the Kubernetes registry; `pythonBuiltins` below is the concrete
table the top-level wrappers use. -/
inductive Builtin where
  | strB | intB | floatB | boolB | objectB | listB | dictB | printB
  deriving DecidableEq

/-- Call a builtins entry on a value, `builtin_type(value)`.  `print`
writes `value` to stdout and returns `None`; the returned `None` is what
the cast stores, the write is an I/O effect outside the built object. -/
def applyBuiltin : Builtin → Value → Except Err Value
  | .strB, v => .ok (.str (pyStr v))
  | .intB, v => pyInt v
  | .floatB, v => pyFloat v
  | .boolB, v => .ok (.bool (pyTruthy v))
  | .objectB, v => .ok v
  | .listB, v => pyListCast v
  | .dictB, v => pyDictCast v
  | .printB, _ => .ok Value.null

/-- The entries of `builtins.__dict__` this development's wrappers and
witnesses touch: the seven type-constructor names that generated type
signatures can mention, and `print` as a representative non-type builtin
callable.  The real namespace holds on the order of 150 entries
(functions, exception classes, constants), so theorems that hinge on a
name being absent from builtins quantify over the table instead of
fixing this sample. -/
def pythonBuiltins : List (String × Builtin) :=
  [("str", .strB), ("int", .intB), ("float", .floatB), ("bool", .boolB),
   ("object", .objectB), ("list", .listB), ("dict", .dictB), ("print", .printB)]

/-- Does `s` start with `pre` (Python `str.startswith`)? -/
def strStartsWith (s pre : String) : Bool := pre.data.isPrefixOf s.data

/-- Does `s` end with `suf` (Python `str.endswith`)? -/
def strEndsWith (s suf : String) : Bool := suf.data.isSuffixOf s.data

/-- Drop the first `n` characters of `s`. -/
def strDrop (s : String) (n : Nat) : String := String.mk (s.data.drop n)

/-- Drop the last `n` characters of `s`. -/
def strDropRight (s : String) (n : Nat) : String :=
  String.mk (s.data.take (s.data.length - n))

/-- ASCII lower-casing of one character (Python `str.lower` additionally
lower-cases non-ASCII letters; every name in the model registry is
ASCII). -/
def charLower (c : Char) : Char :=
  if 65 ≤ c.toNat ∧ c.toNat ≤ 90 then Char.ofNat (c.toNat + 32) else c

/-- Python `s.lower()`. -/
def strToLower (s : String) : String := String.mk (s.data.map charLower)

/-- Python `s.replace(pat, '')` for a one-character pattern: delete every
occurrence of the character (the only replacements the source performs). -/
def removeChar (s : String) (c : Char) : String :=
  String.mk (s.data.filter (fun d => d != c))

/-- Helper for `splitOnChar`: accumulate the current segment (reversed). -/
def splitOnCharAux (c : Char) : List Char → List Char → List String
  | [], acc => [String.mk acc.reverse]
  | d :: rest, acc =>
    if d = c then String.mk acc.reverse :: splitOnCharAux c rest []
    else splitOnCharAux c rest (d :: acc)

/-- Python `s.split(c)` for a one-character separator. -/
def splitOnChar (c : Char) (s : String) : List String := splitOnCharAux c s.data []

/-- The regular expression match `re.match(r'^list\[(.*)\]$', t)`: the
greedy group is everything between the fixed prefix `list[` and the final
`]`.  (The Python `.` does not cross a newline and `$` also matches just
before a trailing newline; generated signature strings contain neither.) -/
def listMatch (t : String) : Option String :=
  if strStartsWith t "list[" ∧ strEndsWith t "]" then
    some (strDropRight (strDrop t 5) 1)
  else none

/-- Split a character list at the last occurrence of the two-character
separator comma-space, mirroring how the two greedy groups of
`^dict\((.*), (.*)\)$` divide the dict-signature body. -/
def lastCommaSplit : List Char → Option (List Char × List Char)
  | [] => none
  | c :: rest =>
    match lastCommaSplit rest with
    | some (l, r) => some (c :: l, r)
    | none =>
      if c = ',' then
        match rest with
        | c2 :: r2 => if c2 = spaceChar then some ([], r2) else none
        | [] => none
      else none

/-- The regular expression match `re.match(r'^dict\((.*), (.*)\)$', t)`,
returning the key-type and value-type groups. -/
def dictMatch (t : String) : Option (String × String) :=
  if strStartsWith t "dict(" ∧ strEndsWith t ")" then
    match lastCommaSplit (strDropRight (strDrop t 5) 1).data with
    | some (l, r) => some (String.mk l, String.mk r)
    | none => none
  else none

/-- Schema descriptor of one generated Kubernetes model class:
`attribute_map` maps the internal field name (constructor argument) to the
document key, and `types` is the `swagger_types`/`openapi_types` table
mapping the internal field name to its type-signature string. -/
structure KType where
  name : String
  attribute_map : List (String × String)
  types : List (String × String)

/-- Core of `cast_value(value, t)`, parametric in the builtins namespace
`bi` (`builtins.__dict__`), the Kubernetes registry `reg`
(`kubernetes.client.__dict__`) and the recursive call used for nested
Kubernetes object types.  Mirrors the source order: look `t` up among the
builtins (`object` is an unconverted passthrough, any other hit is called
on the value), then among the Kubernetes client classes (recursing into
the object builder), else raise `ValueError`. -/
def cast_valueWith (bi : List (String × Builtin)) (reg : List (String × KType))
    (recurse : KType → Value → Except Err Value)
    (value : Value) (t : String) : Except Err Value :=
  match lookupAssocS bi t with
  | some Builtin.objectB => .ok value
  | some b => applyBuiltin b value
  | none =>
    match lookupAssocS reg t with
    | some kt => recurse kt value
    | none => .error (Err.valueError ("Unable to determine cast type behavior: " ++ t))

/-- The `list[T]` branch of the per-field dispatch:
`[cast_value(i, element_type) for i in cfg_value]`.  Iterating a list
yields its elements, a string its one-character strings, a dict its keys;
anything else raises `TypeError`, as Python iteration does. -/
def castListSig (bi : List (String × Builtin)) (reg : List (String × KType))
    (recurse : KType → Value → Except Err Value) (elemT : String) :
    Value → Except Err Value
  | Value.list xs =>
    match mapME (fun i => cast_valueWith bi reg recurse i elemT) xs with
    | .error e => .error e
    | .ok ys => .ok (Value.list ys)
  | Value.str s =>
    match mapME (fun i => cast_valueWith bi reg recurse i elemT)
        (s.data.map (fun c => Value.str (String.singleton c))) with
    | .error e => .error e
    | .ok ys => .ok (Value.list ys)
  | Value.map kvs =>
    match mapME (fun i => cast_valueWith bi reg recurse i elemT) (kvs.map Prod.fst) with
    | .error e => .error e
    | .ok ys => .ok (Value.list ys)
  | _ => .error (Err.typeError "object is not iterable")

/-- The `dict(K, V)` branch of the per-field dispatch: cast every key with
`K` and every value with `V` over `cfg_value.items()`; a non-dict has no
`.items` and raises `AttributeError`. -/
def castDictSig (bi : List (String × Builtin)) (reg : List (String × KType))
    (recurse : KType → Value → Except Err Value) (kT vT : String) :
    Value → Except Err Value
  | Value.map kvs =>
    match mapPairsE (fun a => cast_valueWith bi reg recurse a kT)
        (fun b => cast_valueWith bi reg recurse b vT) kvs with
    | .error e => .error e
    | .ok ps => .ok (Value.map ps)
  | _ => .error (Err.attributeError "object has no attribute items")

/-- Per-field cast dispatch of `new_object`: try the `list[...]` shape,
then the `dict(..., ...)` shape, else fall through to `cast_value` with
the bare signature. -/
def castFieldWith (bi : List (String × Builtin)) (reg : List (String × KType))
    (recurse : KType → Value → Except Err Value)
    (cfgValue : Value) (t : String) : Except Err Value :=
  match listMatch t with
  | some elemT => castListSig bi reg recurse elemT cfgValue
  | none =>
    match dictMatch t with
    | some (kT, vT) => castDictSig bi reg recurse kT vT cfgValue
    | none => cast_valueWith bi reg recurse cfgValue t

/-- One iteration of the `new_object` field loop for the attribute-map
entry `(k, ek)`: read `config.get(ek)`; skip the field (`.ok none`) when
the key is absent or its value is `None`; otherwise look up the field's
type signature (`root_type.swagger_types[k]`, a `KeyError` when missing)
and cast the value, yielding the constructor argument `(k, cast value)`. -/
def fieldStep (castF : Value → String → Except Err Value)
    (types : List (String × String)) (k ek : String) (config : Value) :
    Except Err (Option (String × Value)) :=
  match pyGet config ek with
  | .error e => .error e
  | .ok none => .ok none
  | .ok (some v) =>
    if isNull v then .ok none
    else
      match lookupAssocS types k with
      | none => .error (Err.keyError k)
      | some t =>
        match castF v t with
        | .error e => .error e
        | .ok cv => .ok (some (k, cv))

/-- The `new_object` field loop: iterate the attribute map in order,
accumulating the constructor arguments, aborting on the first raised
exception. -/
def buildFieldsWith (castF : Value → String → Except Err Value)
    (types : List (String × String)) :
    List (String × String) → Value → List (String × Value) →
    Except Err (List (String × Value))
  | [], _, acc => .ok acc
  | (k, ek) :: rest, config, acc =>
    match fieldStep castF types k ek config with
    | .error e => .error e
    | .ok none => buildFieldsWith castF types rest config acc
    | .ok (some p) => buildFieldsWith castF types rest config (acc ++ [p])

/-- Fuelled `new_object(root_type, config)`: build the constructor
arguments from the attribute map and apply the class.  The fuel only
bounds the nesting of object-typed fields; `new_objectF_stable` below
shows any fuel above `Value.size config` gives the same result, and the
wrapper `new_object` always supplies such fuel, so the `recursionError`
case is unreachable from the wrappers (Python has no such bound and its
schemas are finite trees). -/
def new_objectF (bi : List (String × Builtin)) (reg : List (String × KType)) :
    Nat → KType → Value → Except Err Value
  | 0, _, _ => .error (Err.recursionError "maximum recursion depth exceeded")
  | n + 1, root_type, config =>
    match buildFieldsWith (castFieldWith bi reg (fun kt v => new_objectF bi reg n kt v))
        root_type.types root_type.attribute_map config [] with
    | .error e => .error e
    | .ok args => .ok (Value.obj root_type.name args)

/-- `new_object(root_type, config)` over an explicit builtins namespace. -/
def new_objectB (bi : List (String × Builtin)) (reg : List (String × KType))
    (root_type : KType) (config : Value) : Except Err Value :=
  new_objectF bi reg (config.size + 1) root_type config

/-- The per-field cast dispatch with the real recursive builder plugged
in, over an explicit builtins namespace. -/
def castFieldB (bi : List (String × Builtin)) (reg : List (String × KType))
    (v : Value) (t : String) : Except Err Value :=
  castFieldWith bi reg (fun kt w => new_objectB bi reg kt w) v t

/-- `cast_value(value, t)` with the real recursive builder plugged in,
over an explicit builtins namespace. -/
def cast_valueB (bi : List (String × Builtin)) (reg : List (String × KType))
    (v : Value) (t : String) : Except Err Value :=
  cast_valueWith bi reg (fun kt w => new_objectB bi reg kt w) v t

/-- `new_object(root_type, config)` with the sample builtins table. -/
def new_object (reg : List (String × KType)) (root_type : KType)
    (config : Value) : Except Err Value :=
  new_objectB pythonBuiltins reg root_type config

/-- The per-field cast dispatch with the real recursive builder plugged
in (the `list`/`dict`/bare three-way dispatch of `new_object`). -/
def castField (reg : List (String × KType)) (v : Value) (t : String) :
    Except Err Value :=
  castFieldB pythonBuiltins reg v t

/-- `cast_value(value, t)` with the real recursive builder plugged in. -/
def cast_value (reg : List (String × KType)) (v : Value) (t : String) :
    Except Err Value :=
  cast_valueB pythonBuiltins reg v t

/-- Count occurrences of a character in a string, Python `s.count(c)`. -/
def countChar (s : String) (c : Char) : Nat := s.data.count c

/-- Insert into a string-keyed dict modelled as an insertion-ordered
association list: replace the value at an existing key in place, else
append. -/
def dictInsertS (m : List (String × String)) (key val : String) :
    List (String × String) :=
  match m with
  | [] => [(key, val)]
  | (k, v) :: rest =>
    if k = key then (k, val) :: rest else (k, v) :: dictInsertS rest key val

/-- The lookup dict of `get_type`:
`{k.lower(): k for k in models.__dict__.keys()}` (later keys with the same
lower-case form overwrite earlier ones, as in a dict comprehension). -/
def buildLookup (names : List String) : List (String × String) :=
  names.foldl (fun m n => dictInsertS m (strToLower n) n) []

/-- First candidate name: the version with `/` and `.` removed, followed
by the kind (`version.replace('/', '').replace('.', '') + kind`). -/
def candidate1 (version kind : String) : String :=
  removeChar (removeChar version '/') '.' ++ kind

/-- Second candidate name (only tried when the version contains exactly
one `/`): the substring after the separator, followed by the kind
(`version.split('/')[1] + kind`; under the guard the split has exactly
two parts, so index 1 is in range). -/
def candidate2 (version kind : String) : String :=
  (splitOnChar '/' version).getD 1 "" ++ kind

/-- The `possibilities` list of `get_type`, in priority order. -/
def possibilities (version kind : String) : List String :=
  if countChar version '/' = 1 then [candidate1 version kind, candidate2 version kind]
  else [candidate1 version kind]

/-- The candidate loop of `get_type`: for the first candidate present in
the case-insensitive lookup, return `models.__dict__.get(type_name)`
immediately (even if that secondary lookup misses); `none` when no
candidate matches. -/
def firstMatch (reg : List (String × KType)) (lookup : List (String × String)) :
    List String → Option KType
  | [] => none
  | c :: rest =>
    match lookupAssocS lookup (strToLower c) with
    | none => firstMatch reg lookup rest
    | some typeName => lookupAssocS reg typeName

/-- `get_type(manifest)`: reject documents missing `apiVersion` or `kind`
with `ValueError`; then probe the registry with the candidate names.  The
version must support `.replace` (`AttributeError` otherwise) and the kind
must concatenate onto a string (`TypeError` otherwise), as in Python. -/
def get_type (reg : List (String × KType)) (manifest : Value) :
    Except Err (Option KType) :=
  match pyGet manifest "apiVersion" with
  | .error e => .error e
  | .ok vOpt =>
    match vOpt with
    | none => .error (Err.valueError "manifest has no \"version\" field specified")
    | some vVal =>
      if isNull vVal then
        .error (Err.valueError "manifest has no \"version\" field specified")
      else
        match pyGet manifest "kind" with
        | .error e => .error e
        | .ok kOpt =>
          match kOpt with
          | none => .error (Err.valueError "manifest has no \"kind\" field specified")
          | some kVal =>
            if isNull kVal then
              .error (Err.valueError "manifest has no \"kind\" field specified")
            else
              match vVal with
              | Value.str version =>
                match kVal with
                | Value.str kind =>
                  .ok (firstMatch reg (buildLookup (reg.map Prod.fst))
                    (possibilities version kind))
                | _ => .error (Err.typeError "can only concatenate str to str")
              | _ => .error (Err.attributeError "object has no attribute replace")

/-- The document loop of `load_file`: for each parsed manifest, resolve
its type (`None` resolution is a `ValueError`) and build the object. -/
def loadDocs (reg : List (String × KType)) : List Value → Except Err (List Value)
  | [] => .ok []
  | doc :: rest =>
    match get_type reg doc with
    | .error e => .error e
    | .ok none => .error (Err.valueError "Unable to determine object type for manifest")
    | .ok (some t) =>
      match new_object reg t doc with
      | .error e => .error e
      | .ok o =>
        match loadDocs reg rest with
        | .error e => .error e
        | .ok os => .ok (o :: os)

/-- Loop of `load_path` with a renderer supplied, with Python reference
semantics made explicit.  The heap holds the list objects allocated so
far; `objsRef` is the reference currently bound to the local variable
`objs`, and `ctxRef` is the reference stored once into
`renderer.context["objs"]` before the loop.  Per file the renderer is
invoked (observing the current contents of the context-held list, which
we record in `trace`), then `objs = objs + load_file(...)` evaluates the
concatenation into a freshly allocated list and rebinds `objs` to it —
no list is ever mutated in place.  Directory listing, extension filtering
and YAML parsing are external collaborators: `files` is the list of
already-parsed document batches in traversal order. -/
def loadPathGo (reg : List (String × KType)) :
    List (List Value) → List (List Value) → Nat → Nat → List (List Value) →
    List (List Value) × Except Err (List Value)
  | [], heap, objsRef, _, trace => (trace.reverse, .ok (heap.getD objsRef []))
  | docs :: rest, heap, objsRef, ctxRef, trace =>
    let observed := heap.getD ctxRef []
    match loadDocs reg docs with
    | .error e => ((observed :: trace).reverse, .error e)
    | .ok newObjs =>
      let newList := heap.getD objsRef [] ++ newObjs
      loadPathGo reg rest (heap ++ [newList]) heap.length ctxRef (observed :: trace)

/-- `load_path(path, renderer=...)` over parsed file contents: `objs = []`
allocates the list the renderer context will alias for the whole batch;
returns the per-render-call observations of `context["objs"]` together
with the final result. -/
def load_path (reg : List (String × KType)) (files : List (List Value)) :
    List (List Value) × Except Err (List Value) :=
  loadPathGo reg files [[]] 0 0 []

/-- Remove every pair whose key is the string `s` from a dict value's
pair list (used to state that unknown document keys are ignored). -/
def removeKey (s : String) (kvs : List (Value × Value)) : List (Value × Value) :=
  kvs.filter (fun p =>
    match p.1 with
    | Value.str t => t != s
    | _ => true)

/-! ### Concrete sample registry and documents (used by the witnesses) -/

/-- A sample descriptor shaped like the generated `V1Pod` class. -/
def demoPodType : KType :=
  ⟨"V1Pod",
    [("api_version", "apiVersion"), ("kind", "kind"), ("metadata", "metadata")],
    [("api_version", "str"), ("kind", "str"), ("metadata", "V1ObjectMeta")]⟩

/-- A sample descriptor shaped like the generated `V1ObjectMeta` class. -/
def demoMetaType : KType :=
  ⟨"V1ObjectMeta", [("name", "name")], [("name", "str")]⟩

/-- A sample two-class registry. -/
def demoReg : List (String × KType) :=
  [("V1Pod", demoPodType), ("V1ObjectMeta", demoMetaType)]

/-- A parsed sample manifest document. -/
def demoDoc : Value :=
  Value.map [(Value.str "apiVersion", Value.str "v1"),
    (Value.str "kind", Value.str "Pod"),
    (Value.str "metadata", Value.map [(Value.str "name", Value.str "x")])]

/-- The object `new_object` builds from `demoDoc`. -/
def demoObj : Value :=
  Value.obj "V1Pod"
    [("api_version", Value.str "v1"), ("kind", Value.str "Pod"),
     ("metadata", Value.obj "V1ObjectMeta" [("name", Value.str "x")])]

/-- A descriptor whose single field has an unrecognizable type signature. -/
def demoBadType : KType := ⟨"BadType", [("x", "x")], [("x", "frobnicate")]⟩

/-- A descriptor whose single field names the builtin `print` as its type
signature — a bare name that is in `builtins.__dict__` without being a
primitive type constructor. -/
def demoPrintType : KType := ⟨"PrintType", [("x", "x")], [("x", "print")]⟩

/-- Registry with both the version-prefixed and the suffix-only candidate
names for version `apps/v1` and kind `Deployment`. -/
def demoDeployA : KType := ⟨"Appsv1Deployment", [("kind", "kind")], [("kind", "str")]⟩

/-- The suffix-only deployment descriptor, distinct from `demoDeployA`. -/
def demoDeployB : KType := ⟨"V1Deployment", [("kind", "kind")], [("kind", "str")]⟩

/-- Registry holding both deployment descriptors. -/
def demoRegC1 : List (String × KType) :=
  [("Appsv1Deployment", demoDeployA), ("V1Deployment", demoDeployB)]

/-! ## Basic lemmas about sizes, lookups and the fuelled builder -/

lemma Value.size_pos (v : Value) : 1 ≤ v.size := by
  cases v <;> simp [Value.size]

lemma isNull_eq_false {v : Value} : isNull v = false ↔ v ≠ Value.null := by
  cases v <;> simp [isNull]

lemma pyLookup_size_le :
    ∀ (kvs : List (Value × Value)) (key : String) (v : Value),
      pyLookup kvs key = some v → v.size ≤ sizePairs kvs := by
  intro kvs key
  induction kvs with
  | nil => intro v h; simp [pyLookup] at h
  | cons hd rest ih =>
    intro v h
    obtain ⟨a, b⟩ := hd
    simp only [sizePairs]
    cases a with
    | str s =>
      simp only [pyLookup] at h
      by_cases hs : s = key
      · rw [if_pos hs] at h
        cases h
        omega
      · rw [if_neg hs] at h
        have := ih v h
        omega
    | null => simp only [pyLookup] at h; have := ih v h; omega
    | bool b2 => simp only [pyLookup] at h; have := ih v h; omega
    | int n => simp only [pyLookup] at h; have := ih v h; omega
    | float q => simp only [pyLookup] at h; have := ih v h; omega
    | list xs => simp only [pyLookup] at h; have := ih v h; omega
    | map kvs2 => simp only [pyLookup] at h; have := ih v h; omega
    | obj nm fs => simp only [pyLookup] at h; have := ih v h; omega

lemma pyGet_size_lt {config : Value} {ek : String} {v : Value}
    (h : pyGet config ek = .ok (some v)) : v.size < config.size := by
  cases config with
  | map kvs =>
    simp only [pyGet, Except.ok.injEq] at h
    have := pyLookup_size_le kvs ek v h
    simp only [Value.size]
    omega
  | null => simp [pyGet] at h
  | bool b => simp [pyGet] at h
  | int n => simp [pyGet] at h
  | float q => simp [pyGet] at h
  | str s => simp [pyGet] at h
  | list xs => simp [pyGet] at h
  | obj nm fs => simp [pyGet] at h

lemma mem_sizeList_le {x : Value} :
    ∀ {xs : List Value}, x ∈ xs → x.size ≤ sizeList xs := by
  intro xs h
  induction xs with
  | nil => cases h
  | cons y rest ih =>
    simp only [sizeList]
    rcases List.mem_cons.mp h with h1 | h2
    · subst h1; omega
    · have := ih h2; omega

lemma mem_sizePairs_le {a b : Value} :
    ∀ {kvs : List (Value × Value)}, (a, b) ∈ kvs →
      a.size ≤ sizePairs kvs ∧ b.size ≤ sizePairs kvs := by
  intro kvs h
  induction kvs with
  | nil => cases h
  | cons hd rest ih =>
    obtain ⟨c, d⟩ := hd
    simp only [sizePairs]
    rcases List.mem_cons.mp h with h1 | h2
    · cases h1; omega
    · have := ih h2; omega

lemma mapME_congr {α β : Type} {f g : α → Except Err β} :
    ∀ {xs : List α}, (∀ x ∈ xs, f x = g x) → mapME f xs = mapME g xs := by
  intro xs h
  induction xs with
  | nil => rfl
  | cons x rest ih =>
    simp only [mapME]
    rw [h x (List.mem_cons_self x rest), ih (fun y hy => h y (List.mem_cons_of_mem x hy))]

lemma mapPairsE_congr {fk1 fk2 fv1 fv2 : Value → Except Err Value} :
    ∀ {kvs : List (Value × Value)},
      (∀ p ∈ kvs, fk1 p.1 = fk2 p.1) → (∀ p ∈ kvs, fv1 p.2 = fv2 p.2) →
      mapPairsE fk1 fv1 kvs = mapPairsE fk2 fv2 kvs := by
  intro kvs hk hv
  induction kvs with
  | nil => rfl
  | cons hd rest ih =>
    obtain ⟨a, b⟩ := hd
    simp only [mapPairsE]
    rw [hk (a, b) (List.mem_cons_self _ _), hv (a, b) (List.mem_cons_self _ _),
      ih (fun p hp => hk p (List.mem_cons_of_mem _ hp))
        (fun p hp => hv p (List.mem_cons_of_mem _ hp))]

lemma cast_valueWith_congr {bi : List (String × Builtin)}
    {reg : List (String × KType)}
    {r1 r2 : KType → Value → Except Err Value} {v : Value} {t : String}
    (h : ∀ kt, r1 kt v = r2 kt v) :
    cast_valueWith bi reg r1 v t = cast_valueWith bi reg r2 v t := by
  simp only [cast_valueWith]
  cases hb : lookupAssocS bi t with
  | some b => cases b <;> rfl
  | none =>
    cases hr : lookupAssocS reg t with
    | some kt => exact h kt
    | none => rfl

lemma castListSig_congr {bi : List (String × Builtin)}
    {reg : List (String × KType)}
    {r1 r2 : KType → Value → Except Err Value} {v : Value} {elemT : String}
    (hsz : ∀ kt w, w.size ≤ v.size → r1 kt w = r2 kt w)
    (hstr : ∀ kt s, r1 kt (Value.str s) = r2 kt (Value.str s)) :
    castListSig bi reg r1 elemT v = castListSig bi reg r2 elemT v := by
  cases v with
  | list xs =>
    have hm : mapME (fun i => cast_valueWith bi reg r1 i elemT) xs
        = mapME (fun i => cast_valueWith bi reg r2 i elemT) xs := by
      apply mapME_congr
      intro x hx
      apply cast_valueWith_congr
      intro kt
      apply hsz
      have := mem_sizeList_le hx
      simp only [Value.size]
      omega
    simp only [castListSig, hm]
  | str s =>
    have hm : mapME (fun i => cast_valueWith bi reg r1 i elemT)
          (s.data.map (fun c => Value.str (String.singleton c)))
        = mapME (fun i => cast_valueWith bi reg r2 i elemT)
          (s.data.map (fun c => Value.str (String.singleton c))) := by
      apply mapME_congr
      intro x hx
      obtain ⟨c, _, rfl⟩ := List.mem_map.mp hx
      exact cast_valueWith_congr (fun kt => hstr kt (String.singleton c))
    simp only [castListSig, hm]
  | map kvs =>
    have hm : mapME (fun i => cast_valueWith bi reg r1 i elemT) (kvs.map Prod.fst)
        = mapME (fun i => cast_valueWith bi reg r2 i elemT) (kvs.map Prod.fst) := by
      apply mapME_congr
      intro x hx
      apply cast_valueWith_congr
      intro kt
      apply hsz
      obtain ⟨⟨a, b⟩, hab, rfl⟩ := List.mem_map.mp hx
      have := mem_sizePairs_le hab
      simp only [Value.size]
      omega
    simp only [castListSig, hm]
  | null => rfl
  | bool b => rfl
  | int n => rfl
  | float q => rfl
  | obj nm fs => rfl

lemma castDictSig_congr {bi : List (String × Builtin)}
    {reg : List (String × KType)}
    {r1 r2 : KType → Value → Except Err Value} {v : Value} {kT vT : String}
    (hsz : ∀ kt w, w.size ≤ v.size → r1 kt w = r2 kt w) :
    castDictSig bi reg r1 kT vT v = castDictSig bi reg r2 kT vT v := by
  cases v with
  | map kvs =>
    have hm : mapPairsE (fun a => cast_valueWith bi reg r1 a kT)
          (fun b => cast_valueWith bi reg r1 b vT) kvs
        = mapPairsE (fun a => cast_valueWith bi reg r2 a kT)
          (fun b => cast_valueWith bi reg r2 b vT) kvs := by
      apply mapPairsE_congr
      · intro q hq
        apply cast_valueWith_congr
        intro kt
        apply hsz
        obtain ⟨a, b⟩ := q
        have := mem_sizePairs_le hq
        simp only [Value.size]
        omega
      · intro q hq
        apply cast_valueWith_congr
        intro kt
        apply hsz
        obtain ⟨a, b⟩ := q
        have := mem_sizePairs_le hq
        simp only [Value.size]
        omega
    simp only [castDictSig, hm]
  | null => rfl
  | bool b => rfl
  | int n => rfl
  | float q => rfl
  | str s => rfl
  | list xs => rfl
  | obj nm fs => rfl

lemma castFieldWith_congr {bi : List (String × Builtin)}
    {reg : List (String × KType)}
    {r1 r2 : KType → Value → Except Err Value} {v : Value} {t : String}
    (hsz : ∀ kt w, w.size ≤ v.size → r1 kt w = r2 kt w)
    (hstr : ∀ kt s, r1 kt (Value.str s) = r2 kt (Value.str s)) :
    castFieldWith bi reg r1 v t = castFieldWith bi reg r2 v t := by
  simp only [castFieldWith]
  cases hlm : listMatch t with
  | some elemT => exact castListSig_congr hsz hstr
  | none =>
    cases hdm : dictMatch t with
    | some p =>
      obtain ⟨kT, vT⟩ := p
      exact castDictSig_congr hsz
    | none => exact cast_valueWith_congr (fun kt => hsz kt v le_rfl)

lemma fieldStep_congr_castF {c1 c2 : Value → String → Except Err Value}
    {types : List (String × String)} {k ek : String} {config : Value}
    (h : ∀ v, pyGet config ek = .ok (some v) → ∀ t, c1 v t = c2 v t) :
    fieldStep c1 types k ek config = fieldStep c2 types k ek config := by
  simp only [fieldStep]
  split
  · rfl
  · rfl
  next v heq =>
    split
    · rfl
    · split
      · rfl
      next t ht => rw [h v heq t]

lemma buildFieldsWith_congr_castF (c1 c2 : Value → String → Except Err Value)
    {types : List (String × String)} {config : Value}
    (h : ∀ ek v, pyGet config ek = .ok (some v) → ∀ t, c1 v t = c2 v t) :
    ∀ (fields : List (String × String)) (acc : List (String × Value)),
      buildFieldsWith c1 types fields config acc
        = buildFieldsWith c2 types fields config acc := by
  intro fields
  induction fields with
  | nil => intro acc; rfl
  | cons p rest ih =>
    intro acc
    obtain ⟨k, ek⟩ := p
    simp only [buildFieldsWith]
    rw [fieldStep_congr_castF (fun v hv t => h ek v hv t)]
    cases hstep : fieldStep c2 types k ek config with
    | error e => rfl
    | ok o =>
      cases o with
      | none => exact ih acc
      | some pr => exact ih (acc ++ [pr])

lemma fieldStep_congr_config (castF : Value → String → Except Err Value)
    (types : List (String × String)) (k : String) {ek : String} {config config2 : Value}
    (h : pyGet config ek = pyGet config2 ek) :
    fieldStep castF types k ek config = fieldStep castF types k ek config2 := by
  simp only [fieldStep, h]

lemma buildFieldsWith_congr_config {castF : Value → String → Except Err Value}
    {types : List (String × String)} {config config2 : Value} :
    ∀ (fields : List (String × String)) (acc : List (String × Value)),
      (∀ ek, ek ∈ fields.map Prod.snd → pyGet config ek = pyGet config2 ek) →
      buildFieldsWith castF types fields config acc
        = buildFieldsWith castF types fields config2 acc := by
  intro fields
  induction fields with
  | nil => intro acc _; rfl
  | cons p rest ih =>
    intro acc h
    obtain ⟨k, ek⟩ := p
    simp only [buildFieldsWith]
    rw [fieldStep_congr_config castF types k (h ek (by simp))]
    cases hstep : fieldStep castF types k ek config2 with
    | error e => rfl
    | ok o =>
      have hrest : ∀ ek2, ek2 ∈ rest.map Prod.snd → pyGet config ek2 = pyGet config2 ek2 :=
        fun ek2 hm => h ek2 (by simp [hm])
      cases o with
      | none => exact ih acc hrest
      | some pr => exact ih (acc ++ [pr]) hrest

lemma new_objectF_nonmap (bi : List (String × Builtin))
    (reg : List (String × KType)) (n m : Nat) (rt : KType)
    (config : Value) (hc : ∀ kvs, config ≠ Value.map kvs)
    (hn : 1 ≤ n) (hm : 1 ≤ m) :
    new_objectF bi reg n rt config = new_objectF bi reg m rt config := by
  obtain ⟨n1, rfl⟩ : ∃ n1, n = n1 + 1 := ⟨n - 1, by omega⟩
  obtain ⟨m1, rfl⟩ : ∃ m1, m = m1 + 1 := ⟨m - 1, by omega⟩
  simp only [new_objectF]
  rw [buildFieldsWith_congr_castF _
    (castFieldWith bi reg (fun kt v => new_objectF bi reg m1 kt v))]
  intro ek v hv t
  exfalso
  cases config with
  | map kvs => exact hc kvs rfl
  | null => simp [pyGet] at hv
  | bool b => simp [pyGet] at hv
  | int i => simp [pyGet] at hv
  | float q => simp [pyGet] at hv
  | str s => simp [pyGet] at hv
  | list xs => simp [pyGet] at hv
  | obj nm2 fs => simp [pyGet] at hv

lemma new_objectF_stable (bi : List (String × Builtin))
    (reg : List (String × KType)) :
    ∀ (d : Nat) (config : Value) (rt : KType) (n m : Nat),
      config.size ≤ d → config.size < n → config.size < m →
      new_objectF bi reg n rt config = new_objectF bi reg m rt config := by
  intro d
  induction d with
  | zero =>
    intro config rt n m hd _ _
    have := Value.size_pos config
    omega
  | succ d ih =>
    intro config rt n m hd hn hm
    have hpos := Value.size_pos config
    obtain ⟨n1, rfl⟩ : ∃ n1, n = n1 + 1 := ⟨n - 1, by omega⟩
    obtain ⟨m1, rfl⟩ : ∃ m1, m = m1 + 1 := ⟨m - 1, by omega⟩
    simp only [new_objectF]
    rw [buildFieldsWith_congr_castF _
      (castFieldWith bi reg (fun kt v => new_objectF bi reg m1 kt v))]
    intro ek v hv t
    have hvs : v.size < config.size := pyGet_size_lt hv
    apply castFieldWith_congr
    · intro kt w hw
      exact ih w kt n1 m1 (by omega) (by omega) (by omega)
    · intro kt s
      exact new_objectF_nonmap bi reg n1 m1 kt (Value.str s)
        (fun kvs h => Value.noConfusion h) (by omega) (by omega)

lemma new_objectF_eq_new_objectB {bi : List (String × Builtin)}
    {reg : List (String × KType)} {rt : KType}
    {config : Value} {n : Nat} (h : config.size < n) :
    new_objectF bi reg n rt config = new_objectB bi reg rt config :=
  new_objectF_stable bi reg config.size config rt n (config.size + 1) le_rfl h
    (Nat.lt_succ_self _)

lemma castFieldWith_fuel_eq {bi : List (String × Builtin)}
    {reg : List (String × KType)} {v : Value} {t : String}
    {n : Nat} (h : v.size < n) :
    castFieldWith bi reg (fun kt w => new_objectF bi reg n kt w) v t
      = castFieldB bi reg v t := by
  have hpos := Value.size_pos v
  apply castFieldWith_congr
  · intro kt w hw
    exact new_objectF_eq_new_objectB (by omega)
  · intro kt s
    show new_objectF bi reg n kt (Value.str s) = new_objectB bi reg kt (Value.str s)
    unfold new_objectB
    exact new_objectF_nonmap bi reg n ((Value.str s).size + 1) kt (Value.str s)
      (fun kvs hk => Value.noConfusion hk) (by omega) (by omega)

/-- Canonical unfolding: `new_objectB` is the field loop with the fully
recursive per-field cast (`castFieldB`) plugged in, followed by the single
atomic construction of the result object. -/
lemma new_objectB_eq_buildFields (bi : List (String × Builtin))
    (reg : List (String × KType)) (rt : KType) (config : Value) :
    new_objectB bi reg rt config =
      match buildFieldsWith (fun v t => castFieldB bi reg v t) rt.types
          rt.attribute_map config [] with
      | .error e => .error e
      | .ok args => .ok (Value.obj rt.name args) := by
  show new_objectF bi reg (config.size + 1) rt config = _
  simp only [new_objectF]
  rw [buildFieldsWith_congr_castF _ (fun v t => castFieldB bi reg v t)]
  intro ek v hv t
  exact castFieldWith_fuel_eq (pyGet_size_lt hv)

/-- The canonical unfolding specialised to the sample builtins table. -/
lemma new_object_eq_buildFields (reg : List (String × KType)) (rt : KType)
    (config : Value) :
    new_object reg rt config =
      match buildFieldsWith (fun v t => castField reg v t) rt.types
          rt.attribute_map config [] with
      | .error e => .error e
      | .ok args => .ok (Value.obj rt.name args) :=
  new_objectB_eq_buildFields pythonBuiltins reg rt config

/-! ## Lemmas about the field loop -/

lemma fieldStep_error {castF : Value → String → Except Err Value}
    {types : List (String × String)} {k ek t2 : String}
    {kvs : List (Value × Value)} {val : Value} {e : Err}
    (hget : pyLookup kvs ek = some val) (hnn : val ≠ Value.null)
    (htyp : lookupAssocS types k = some t2) (hcast : castF val t2 = .error e) :
    fieldStep castF types k ek (Value.map kvs) = .error e := by
  have hnull : isNull val = false := isNull_eq_false.mpr hnn
  simp [fieldStep, pyGet, hget, hnull, htyp, hcast]

lemma buildFieldsWith_error_of_mem {castF : Value → String → Except Err Value}
    {types : List (String × String)} {k ek t2 : String}
    {kvs : List (Value × Value)} {val : Value} {e : Err}
    (hget : pyLookup kvs ek = some val) (hnn : val ≠ Value.null)
    (htyp : lookupAssocS types k = some t2) (hcast : castF val t2 = .error e) :
    ∀ (fields : List (String × String)) (acc : List (String × Value)),
      (k, ek) ∈ fields →
      ∃ e2, buildFieldsWith castF types fields (Value.map kvs) acc = .error e2 := by
  intro fields
  induction fields with
  | nil => intro acc hmem; cases hmem
  | cons p rest ih =>
    intro acc hmem
    obtain ⟨k2, ek2⟩ := p
    rcases List.mem_cons.mp hmem with heq | hmem2
    · obtain ⟨rfl, rfl⟩ : k2 = k ∧ ek2 = ek := by
        have h1 := congrArg Prod.fst heq
        have h2 := congrArg Prod.snd heq
        exact ⟨h1.symm, h2.symm⟩
      refine ⟨e, ?_⟩
      simp only [buildFieldsWith, fieldStep_error hget hnn htyp hcast]
    · cases hstep : fieldStep castF types k2 ek2 (Value.map kvs) with
      | error e3 => exact ⟨e3, by simp only [buildFieldsWith, hstep]⟩
      | ok o =>
        cases o with
        | none =>
          obtain ⟨e2, he⟩ := ih acc hmem2
          exact ⟨e2, by simp only [buildFieldsWith, hstep]; exact he⟩
        | some pr =>
          obtain ⟨e2, he⟩ := ih (acc ++ [pr]) hmem2
          exact ⟨e2, by simp only [buildFieldsWith, hstep]; exact he⟩

lemma fieldStep_skip (castF : Value → String → Except Err Value)
    (types : List (String × String)) (k : String)
    {ek : String} {kvs : List (Value × Value)}
    (h : pyLookup kvs ek = none ∨ pyLookup kvs ek = some Value.null) :
    fieldStep castF types k ek (Value.map kvs) = .ok none := by
  rcases h with h | h <;> simp [fieldStep, pyGet, h, isNull]

lemma buildFieldsWith_skip_middle {castF : Value → String → Except Err Value}
    {types : List (String × String)} {config : Value} {k ek : String}
    (hstep : fieldStep castF types k ek config = .ok none) :
    ∀ (l1 l2 : List (String × String)) (acc : List (String × Value)),
      buildFieldsWith castF types (l1 ++ (k, ek) :: l2) config acc
        = buildFieldsWith castF types (l1 ++ l2) config acc := by
  intro l1
  induction l1 with
  | nil =>
    intro l2 acc
    simp only [List.nil_append, buildFieldsWith, hstep]
  | cons p rest ih =>
    intro l2 acc
    obtain ⟨k2, ek2⟩ := p
    simp only [List.cons_append, buildFieldsWith]
    cases hstep2 : fieldStep castF types k2 ek2 config with
    | error e => rfl
    | ok o =>
      cases o with
      | none => exact ih l2 acc
      | some pr => exact ih l2 (acc ++ [pr])

lemma fieldStep_ok_some {castF : Value → String → Except Err Value}
    {types : List (String × String)} {k ek : String} {config : Value}
    {p : String × Value}
    (h : fieldStep castF types k ek config = .ok (some p)) : ∃ cv, p = (k, cv) := by
  simp only [fieldStep] at h
  split at h
  · exact Except.noConfusion h
  · exact Option.noConfusion (Except.ok.inj h)
  next v heq =>
    split at h
    · exact Option.noConfusion (Except.ok.inj h)
    · split at h
      · exact Except.noConfusion h
      next t ht =>
        split at h
        · exact Except.noConfusion h
        next cv hcv =>
          exact ⟨cv, (Option.some.inj (Except.ok.inj h)).symm⟩

lemma lookupAssocS_append_none {α : Type} {acc : List (String × α)}
    {k k2 : String} {cv : α}
    (hacc : lookupAssocS acc k = none) (hne : k2 ≠ k) :
    lookupAssocS (acc ++ [(k2, cv)]) k = none := by
  induction acc with
  | nil => simp [lookupAssocS, hne]
  | cons p rest ih =>
    obtain ⟨ka, va⟩ := p
    simp only [List.cons_append, lookupAssocS] at hacc ⊢
    by_cases hk : ka = k
    · rw [if_pos hk] at hacc; cases hacc
    · rw [if_neg hk] at hacc ⊢
      exact ih hacc

lemma buildFieldsWith_ok_lookup_none {castF : Value → String → Except Err Value}
    {types : List (String × String)} {config : Value} {k : String} :
    ∀ (fields : List (String × String)) (acc fs : List (String × Value)),
      buildFieldsWith castF types fields config acc = .ok fs →
      k ∉ fields.map Prod.fst → lookupAssocS acc k = none →
      lookupAssocS fs k = none := by
  intro fields
  induction fields with
  | nil =>
    intro acc fs h hmem hacc
    simp only [buildFieldsWith] at h
    injection h with h2
    subst h2
    exact hacc
  | cons p rest ih =>
    intro acc fs h hmem hacc
    obtain ⟨k2, ek2⟩ := p
    simp only [List.map_cons, List.mem_cons, not_or] at hmem
    obtain ⟨hne, hmem2⟩ := hmem
    simp only [buildFieldsWith] at h
    cases hstep : fieldStep castF types k2 ek2 config with
    | error e => rw [hstep] at h; cases h
    | ok o =>
      rw [hstep] at h
      cases o with
      | none => exact ih acc fs h hmem2 hacc
      | some pr =>
        obtain ⟨cv, rfl⟩ := fieldStep_ok_some hstep
        exact ih (acc ++ [(k2, cv)]) fs h hmem2
          (lookupAssocS_append_none hacc (fun hh => hne hh.symm))

/-! ## Lemmas about element-wise casting -/

lemma mapME_ok {α β : Type} {f : α → Except Err β} :
    ∀ {xs : List α} {ys : List β}, mapME f xs = .ok ys →
      ys.length = xs.length ∧
      ∀ i x, xs.get? i = some x → ∃ y, ys.get? i = some y ∧ f x = .ok y := by
  intro xs
  induction xs with
  | nil =>
    intro ys h
    simp only [mapME] at h
    injection h with h2
    subst h2
    refine ⟨rfl, ?_⟩
    intro i x hx
    simp [List.get?] at hx
  | cons x rest ih =>
    intro ys h
    simp only [mapME] at h
    cases hfx : f x with
    | error e => rw [hfx] at h; cases h
    | ok y =>
      rw [hfx] at h
      cases hrest : mapME f rest with
      | error e => rw [hrest] at h; cases h
      | ok ys2 =>
        rw [hrest] at h
        injection h with h2
        subst h2
        obtain ⟨hlen, hpt⟩ := ih hrest
        refine ⟨by simp [hlen], ?_⟩
        intro i z hz
        cases i with
        | zero =>
          simp only [List.get?] at hz ⊢
          injection hz with h3
          subst h3
          exact ⟨y, rfl, hfx⟩
        | succ i2 =>
          simp only [List.get?] at hz ⊢
          exact hpt i2 z hz

/-! ## Lemmas about the resolver lookup table -/

lemma dictInsertS_lookup (m : List (String × String)) (key val s : String) :
    lookupAssocS (dictInsertS m key val) s
      = if key = s then some val else lookupAssocS m s := by
  induction m with
  | nil => simp [dictInsertS, lookupAssocS]
  | cons p rest ih =>
    obtain ⟨k2, v2⟩ := p
    simp only [dictInsertS]
    by_cases hk : k2 = key
    · subst hk
      simp only [if_pos rfl, lookupAssocS]
      by_cases hs : k2 = s
      · simp [hs]
      · simp [hs, lookupAssocS]
    · rw [if_neg hk]
      simp only [lookupAssocS]
      by_cases hs : k2 = s
      · subst hs
        have : ¬ key = k2 := fun hh => hk hh.symm
        simp [this]
      · simp only [if_neg hs]
        exact ih

lemma buildLookup_values_mem :
    ∀ (names : List String) (m0 : List (String × String)) (s n : String),
      lookupAssocS (names.foldl (fun m nm => dictInsertS m (strToLower nm) nm) m0) s
        = some n →
      n ∈ names ∨ lookupAssocS m0 s = some n := by
  intro names
  induction names with
  | nil => intro m0 s n h; exact Or.inr h
  | cons a rest ih =>
    intro m0 s n h
    simp only [List.foldl_cons] at h
    rcases ih _ s n h with h2 | h2
    · exact Or.inl (List.mem_cons_of_mem a h2)
    · rw [dictInsertS_lookup] at h2
      by_cases hs : strToLower a = s
      · rw [if_pos hs] at h2
        injection h2 with h3
        exact Or.inl (h3 ▸ List.mem_cons_self a rest)
      · rw [if_neg hs] at h2
        exact Or.inr h2

lemma buildLookup_mem {names : List String} {s n : String}
    (h : lookupAssocS (buildLookup names) s = some n) : n ∈ names := by
  rcases buildLookup_values_mem names [] s n h with h2 | h2
  · exact h2
  · simp [lookupAssocS] at h2

lemma mem_keys_lookup {α : Type} {reg : List (String × α)} {n : String}
    (h : n ∈ reg.map Prod.fst) : ∃ d, lookupAssocS reg n = some d := by
  induction reg with
  | nil => simp at h
  | cons p rest ih =>
    obtain ⟨k2, d2⟩ := p
    by_cases hk : k2 = n
    · exact ⟨d2, by simp [lookupAssocS, hk]⟩
    · simp only [List.map_cons, List.mem_cons] at h
      rcases h with h | h
      · exact absurd h.symm hk
      · obtain ⟨d, hd⟩ := ih h
        exact ⟨d, by simp [lookupAssocS, hk, hd]⟩

lemma firstMatch_none (reg : List (String × KType)) (lookup : List (String × String)) :
    ∀ cands : List String,
      (∀ c ∈ cands, lookupAssocS lookup (strToLower c) = none) →
      firstMatch reg lookup cands = none := by
  intro cands h
  induction cands with
  | nil => rfl
  | cons c rest ih =>
    simp only [firstMatch, h c (List.mem_cons_self _ _)]
    exact ih (fun c2 hc => h c2 (List.mem_cons_of_mem _ hc))

/-! ## Lemmas about removing unknown keys -/

lemma pyLookup_removeKey {s ek : String} (hne : ek ≠ s) :
    ∀ kvs : List (Value × Value),
      pyLookup (removeKey s kvs) ek = pyLookup kvs ek := by
  intro kvs
  induction kvs with
  | nil => rfl
  | cons p rest ih =>
    obtain ⟨a, b⟩ := p
    cases a with
    | str t =>
      by_cases hts : t = s
      · subst hts
        simp only [removeKey, List.filter_cons] at ih ⊢
        simp only [bne_self_eq_false, Bool.false_eq_true, if_false]
        rw [ih]
        simp only [pyLookup]
        have hne2 : ¬ t = ek := fun hh => hne (hh ▸ rfl)
        rw [if_neg hne2]
      · have hbt : (t != s) = true := bne_iff_ne.mpr hts
        simp only [removeKey, List.filter_cons] at ih ⊢
        simp only [hbt, if_true]
        simp only [pyLookup]
        by_cases htk : t = ek
        · rw [if_pos htk, if_pos htk]
        · rw [if_neg htk, if_neg htk]
          exact ih
    | null => simpa [removeKey, List.filter_cons, pyLookup] using ih
    | bool b2 => simpa [removeKey, List.filter_cons, pyLookup] using ih
    | int n => simpa [removeKey, List.filter_cons, pyLookup] using ih
    | float q => simpa [removeKey, List.filter_cons, pyLookup] using ih
    | list xs => simpa [removeKey, List.filter_cons, pyLookup] using ih
    | map kvs2 => simpa [removeKey, List.filter_cons, pyLookup] using ih
    | obj nm fs => simpa [removeKey, List.filter_cons, pyLookup] using ih

/-! ## The claims -/

/-- C1: for every document whose version contains exactly one separator
and whose version-prefixed and suffix-only candidate names both match
registry entries (case-insensitively), `get_type` returns the descriptor
of the version-prefixed candidate, never the suffix-only one. -/
theorem spec_C1 (reg : List (String × KType)) (kvs : List (Value × Value))
    (version kind n1 n2 : String)
    (hv : pyLookup kvs "apiVersion" = some (Value.str version))
    (hk : pyLookup kvs "kind" = some (Value.str kind))
    (hsep : countChar version '/' = 1)
    (h1 : lookupAssocS (buildLookup (reg.map Prod.fst))
        (strToLower (candidate1 version kind)) = some n1)
    (h2 : lookupAssocS (buildLookup (reg.map Prod.fst))
        (strToLower (candidate2 version kind)) = some n2) :
    ∃ d, lookupAssocS reg n1 = some d ∧
      get_type reg (Value.map kvs) = .ok (some d) := by
  have hn1mem : n1 ∈ reg.map Prod.fst := buildLookup_mem h1
  obtain ⟨d, hd⟩ := mem_keys_lookup hn1mem
  refine ⟨d, hd, ?_⟩
  simp [get_type, pyGet, hv, hk, isNull, possibilities, hsep, firstMatch, h1, hd]

/-- C1 witness: with version `apps/v1` and kind `Deployment` both
`appsv1deployment` and `v1deployment` are registered; resolution returns
the version-prefixed descriptor. -/
theorem spec_C1_witness :
    (countChar "apps/v1" '/' = 1 ∧
      lookupAssocS (buildLookup (demoRegC1.map Prod.fst))
        (strToLower (candidate1 "apps/v1" "Deployment")) = some "Appsv1Deployment" ∧
      lookupAssocS (buildLookup (demoRegC1.map Prod.fst))
        (strToLower (candidate2 "apps/v1" "Deployment")) = some "V1Deployment") ∧
    ∃ d, lookupAssocS demoRegC1 "Appsv1Deployment" = some d ∧
      get_type demoRegC1
        (Value.map [(Value.str "apiVersion", Value.str "apps/v1"),
          (Value.str "kind", Value.str "Deployment")]) = .ok (some d) :=
  ⟨⟨rfl, rfl, rfl⟩,
    spec_C1 demoRegC1
      [(Value.str "apiVersion", Value.str "apps/v1"),
        (Value.str "kind", Value.str "Deployment")]
      "apps/v1" "Deployment" "Appsv1Deployment" "V1Deployment" rfl rfl rfl rfl rfl⟩

/-- C3: a manifest mapping whose `apiVersion` or `kind` is absent (or the
explicit `None`) makes `get_type` raise `ValueError`, for every registry —
so before any candidate generation or registry lookup, and distinct from
the `none` result. -/
theorem spec_C3 (kvs : List (Value × Value))
    (h : pyLookup kvs "apiVersion" = none ∨ pyLookup kvs "apiVersion" = some Value.null
      ∨ pyLookup kvs "kind" = none ∨ pyLookup kvs "kind" = some Value.null) :
    ∀ reg : List (String × KType), ∃ msg,
      get_type reg (Value.map kvs) = .error (Err.valueError msg) := by
  intro reg
  rcases h with h | h | h | h
  · exact ⟨"manifest has no \"version\" field specified", by simp [get_type, pyGet, h]⟩
  · exact ⟨"manifest has no \"version\" field specified",
      by simp [get_type, pyGet, h, isNull]⟩
  · cases hv : pyLookup kvs "apiVersion" with
    | none =>
      exact ⟨"manifest has no \"version\" field specified",
        by simp [get_type, pyGet, hv]⟩
    | some vVal =>
      cases hn : isNull vVal with
      | true =>
        exact ⟨"manifest has no \"version\" field specified",
          by simp [get_type, pyGet, hv, hn]⟩
      | false =>
        exact ⟨"manifest has no \"kind\" field specified",
          by simp [get_type, pyGet, hv, hn, h]⟩
  · cases hv : pyLookup kvs "apiVersion" with
    | none =>
      exact ⟨"manifest has no \"version\" field specified",
        by simp [get_type, pyGet, hv]⟩
    | some vVal =>
      cases hn : isNull vVal with
      | true =>
        exact ⟨"manifest has no \"version\" field specified",
          by simp [get_type, pyGet, hv, hn]⟩
      | false =>
        exact ⟨"manifest has no \"kind\" field specified",
          by simp [get_type, pyGet, hv, hn, h, show isNull Value.null = true from rfl]⟩

/-- C3 witness: a document with only `kind` raises the malformed-input
error on every registry. -/
theorem spec_C3_witness :
    pyLookup [(Value.str "kind", Value.str "Pod")] "apiVersion" = none ∧
    ∃ msg, get_type demoReg (Value.map [(Value.str "kind", Value.str "Pod")])
      = .error (Err.valueError msg) :=
  ⟨rfl, spec_C3 [(Value.str "kind", Value.str "Pod")] (Or.inl rfl) demoReg⟩

/-- C4: a manifest with string `apiVersion` and `kind` whose candidate
names all miss the registry resolves to the not-found value `none`, not
an error. -/
theorem spec_C4 (reg : List (String × KType)) (kvs : List (Value × Value))
    (version kind : String)
    (hv : pyLookup kvs "apiVersion" = some (Value.str version))
    (hk : pyLookup kvs "kind" = some (Value.str kind))
    (hmiss : ∀ c ∈ possibilities version kind,
      lookupAssocS (buildLookup (reg.map Prod.fst)) (strToLower c) = none) :
    get_type reg (Value.map kvs) = .ok none := by
  have hfm := firstMatch_none reg (buildLookup (reg.map Prod.fst))
    (possibilities version kind) hmiss
  simp [get_type, pyGet, hv, hk, isNull, hfm]

/-- C4 witness: an unknown version/kind pair resolves to `none` on the
sample registry. -/
theorem spec_C4_witness :
    (∀ c ∈ possibilities "zz/v9" "Gone",
      lookupAssocS (buildLookup (demoReg.map Prod.fst)) (strToLower c) = none) ∧
    get_type demoReg
      (Value.map [(Value.str "apiVersion", Value.str "zz/v9"),
        (Value.str "kind", Value.str "Gone")]) = .ok none :=
  ⟨by decide,
    spec_C4 demoReg
      [(Value.str "apiVersion", Value.str "zz/v9"), (Value.str "kind", Value.str "Gone")]
      "zz/v9" "Gone" rfl rfl (by decide)⟩

/-- C5: a descriptor field whose document key is absent, or mapped to the
explicit `None`, is skipped entirely: building behaves exactly as if the
field were not declared (in particular, the absence never causes a
failure by itself), and the field is unset in the constructed object. -/
theorem spec_C5 (reg : List (String × KType)) (rt : KType)
    (kvs : List (Value × Value)) (l1 l2 : List (String × String)) (k ek : String)
    (hsplit : rt.attribute_map = l1 ++ (k, ek) :: l2)
    (habsent : pyLookup kvs ek = none ∨ pyLookup kvs ek = some Value.null) :
    new_object reg rt (Value.map kvs)
      = new_object reg ⟨rt.name, l1 ++ l2, rt.types⟩ (Value.map kvs)
    ∧ (k ∉ (l1 ++ l2).map Prod.fst →
        ∀ nm fs, new_object reg rt (Value.map kvs) = .ok (Value.obj nm fs) →
          lookupAssocS fs k = none) := by
  have hskip := fieldStep_skip (fun v t => castField reg v t) rt.types k habsent
  have heq : new_object reg rt (Value.map kvs)
      = new_object reg ⟨rt.name, l1 ++ l2, rt.types⟩ (Value.map kvs) := by
    rw [new_object_eq_buildFields, new_object_eq_buildFields]
    dsimp only
    rw [hsplit, buildFieldsWith_skip_middle hskip]
  refine ⟨heq, ?_⟩
  intro hmem nm fs hok
  rw [heq, new_object_eq_buildFields] at hok
  dsimp only at hok
  cases hbf : buildFieldsWith (fun v t => castField reg v t) rt.types (l1 ++ l2)
      (Value.map kvs) [] with
  | error e => rw [hbf] at hok; cases hok
  | ok args =>
    rw [hbf] at hok
    injection hok with h2
    injection h2 with h3 h4
    subst h4
    exact buildFieldsWith_ok_lookup_none (l1 ++ l2) [] args hbf hmem rfl

/-- C5 witness: `kind` explicitly `None` and `metadata` absent are both
skipped; building succeeds with only `api_version` set and `kind` unset. -/
theorem spec_C5_witness :
    (demoPodType.attribute_map
        = [("api_version", "apiVersion")] ++ ("kind", "kind") :: [("metadata", "metadata")]
      ∧ pyLookup [(Value.str "apiVersion", Value.str "v1"), (Value.str "kind", Value.null)]
          "kind" = some Value.null
      ∧ new_object demoReg demoPodType
          (Value.map [(Value.str "apiVersion", Value.str "v1"),
            (Value.str "kind", Value.null)])
        = .ok (Value.obj "V1Pod" [("api_version", Value.str "v1")])) ∧
    (new_object demoReg demoPodType
        (Value.map [(Value.str "apiVersion", Value.str "v1"),
          (Value.str "kind", Value.null)])
      = new_object demoReg
          ⟨demoPodType.name, [("api_version", "apiVersion"), ("metadata", "metadata")],
            demoPodType.types⟩
          (Value.map [(Value.str "apiVersion", Value.str "v1"),
            (Value.str "kind", Value.null)])
    ∧ ("kind" ∉ ([("api_version", "apiVersion"), ("metadata", "metadata")]
          : List (String × String)).map Prod.fst →
        ∀ nm fs,
          new_object demoReg demoPodType
            (Value.map [(Value.str "apiVersion", Value.str "v1"),
              (Value.str "kind", Value.null)]) = .ok (Value.obj nm fs) →
          lookupAssocS fs "kind" = none)) :=
  ⟨⟨rfl, rfl, rfl⟩,
    spec_C5 demoReg demoPodType
      [(Value.str "apiVersion", Value.str "v1"), (Value.str "kind", Value.null)]
      [("api_version", "apiVersion")] [("metadata", "metadata")] "kind" "kind"
      rfl (Or.inr rfl)⟩

/-- C2 counterexample: the claim as stated is false of the code.  The
signature `print` matches neither collection shape, and its bare name is
no builtin primitive type and no registered Kubernetes class — so per the
claim building should raise a cast error.  But `builtins.__dict__`
contains `print`, so `cast_value` finds it and calls it: the cast
silently returns `None` (the return value of `print`; the stdout write is
an effect outside the built object), and the whole build succeeds with a
populated object instead of raising. -/
theorem spec_C2_counterexample :
    listMatch "print" = none ∧ dictMatch "print" = none ∧
    lookupAssocS pythonBuiltins "print" = some Builtin.printB ∧
    lookupAssocS demoReg "print" = none ∧
    cast_value demoReg (Value.str "v") "print" = .ok Value.null ∧
    new_object demoReg demoPrintType (Value.map [(Value.str "x", Value.str "v")])
      = .ok (Value.obj "PrintType" [("x", Value.null)]) :=
  ⟨rfl, rfl, rfl, rfl, rfl, rfl⟩

/-- C2 (amended): a type signature matching neither collection shape and
whose bare name is found neither in the builtins namespace (the whole
namespace, not only the primitive type constructors — a non-type entry
such as `print` is applied instead, as the counterexample shows) nor
among the registered Kubernetes classes makes the cast raise `ValueError`
— never a silent passthrough — and any present field whose cast raises
aborts the whole `new_object` call with an error, so no partial object is
returned (applying the second part at each nesting level propagates a
failure from arbitrary depth to the top).  The theorem quantifies over
the builtins table, exactly as it quantifies over the registry, so it
applies to the real interpreter namespace. -/
theorem spec_C2 (bi : List (String × Builtin)) (reg : List (String × KType))
    (t : String)
    (hl : listMatch t = none) (hd : dictMatch t = none)
    (hb : lookupAssocS bi t = none) (hk : lookupAssocS reg t = none) :
    (∀ v, cast_valueB bi reg v t
        = .error (Err.valueError ("Unable to determine cast type behavior: " ++ t))
      ∧ castFieldB bi reg v t
        = .error (Err.valueError ("Unable to determine cast type behavior: " ++ t)))
    ∧ ∀ (rt : KType) (kvs : List (Value × Value)) (k ek t2 : String)
        (val : Value) (e : Err),
        (k, ek) ∈ rt.attribute_map →
        pyLookup kvs ek = some val → val ≠ Value.null →
        lookupAssocS rt.types k = some t2 →
        castFieldB bi reg val t2 = .error e →
        ∃ e2, new_objectB bi reg rt (Value.map kvs) = .error e2 := by
  constructor
  · intro v
    constructor
    · simp [cast_valueB, cast_valueWith, hb, hk]
    · simp [castFieldB, castFieldWith, hl, hd, cast_valueWith, hb, hk]
  · intro rt kvs k ek t2 val e hmem hget hnn htyp hcast
    rw [new_objectB_eq_buildFields]
    obtain ⟨e2, he2⟩ := buildFieldsWith_error_of_mem hget hnn htyp hcast
      rt.attribute_map [] hmem
    exact ⟨e2, by rw [he2]⟩

/-- C2 witness: with the sample builtins table, the signature
`frobnicate` matches no shape and is in neither namespace; casting any
value against it raises, and a document field declared with it aborts the
whole build. -/
theorem spec_C2_witness :
    (listMatch "frobnicate" = none ∧ dictMatch "frobnicate" = none
      ∧ lookupAssocS pythonBuiltins "frobnicate" = none
      ∧ lookupAssocS demoReg "frobnicate" = none) ∧
    cast_value demoReg (Value.int 3) "frobnicate"
      = .error (Err.valueError "Unable to determine cast type behavior: frobnicate") ∧
    ∃ e2, new_object demoReg demoBadType (Value.map [(Value.str "x", Value.str "v")])
      = .error e2 := by
  have h := spec_C2 pythonBuiltins demoReg "frobnicate" rfl rfl rfl rfl
  refine ⟨⟨rfl, rfl, rfl, rfl⟩, (h.1 (Value.int 3)).1, ?_⟩
  exact h.2 demoBadType [(Value.str "x", Value.str "v")] "x" "x" "frobnicate"
    (Value.str "v")
    (Err.valueError "Unable to determine cast type behavior: frobnicate")
    (List.mem_cons_self _ _) rfl (fun hh => Value.noConfusion hh) rfl rfl

/-- C7: casting a sequence value against a `list[T]` signature yields a
sequence of the same length whose i-th element is the `T`-cast of the
i-th source element, in source order. -/
theorem spec_C7 (reg : List (String × KType)) (t elemT : String)
    (xs : List Value) (res : Value)
    (hm : listMatch t = some elemT)
    (hc : castField reg (Value.list xs) t = .ok res) :
    ∃ ys, res = Value.list ys ∧ ys.length = xs.length ∧
      ∀ i x, xs.get? i = some x →
        ∃ y, ys.get? i = some y ∧ cast_value reg x elemT = .ok y := by
  simp only [castField, castFieldB, castFieldWith, hm, castListSig] at hc
  cases hmm : mapME
      (fun i => cast_valueWith pythonBuiltins reg
        (fun kt w => new_objectB pythonBuiltins reg kt w) i elemT) xs with
  | error e => rw [hmm] at hc; cases hc
  | ok ys =>
    rw [hmm] at hc
    injection hc with h2
    obtain ⟨hlen, hpt⟩ := mapME_ok hmm
    exact ⟨ys, h2.symm, hlen, hpt⟩

/-- C7 witness: casting `[1, "a"]` against `list[str]` gives
`["1", "a"]`, same length, order preserved, elementwise `str` casts. -/
theorem spec_C7_witness :
    (listMatch "list[str]" = some "str"
      ∧ castField demoReg (Value.list [Value.int 1, Value.str "a"]) "list[str]"
          = .ok (Value.list [Value.str "1", Value.str "a"])) ∧
    ∃ ys, Value.list [Value.str "1", Value.str "a"] = Value.list ys
      ∧ ys.length = [Value.int 1, Value.str "a"].length
      ∧ ∀ i x, [Value.int 1, Value.str "a"].get? i = some x →
          ∃ y, ys.get? i = some y ∧ cast_value demoReg x "str" = .ok y :=
  ⟨⟨rfl, rfl⟩,
    spec_C7 demoReg "list[str]" "str" [Value.int 1, Value.str "a"]
      (Value.list [Value.str "1", Value.str "a"]) rfl rfl⟩

/-- C8: casting any value against the generic `object` type name returns
the value unchanged: an unconditional passthrough that never fails. -/
theorem spec_C8 (reg : List (String × KType)) (v : Value) :
    cast_value reg v "object" = .ok v := rfl

/-- C9: building is deterministic — two results of `new_object` on the
identical descriptor and raw mapping agree on the class name and
field-for-field. -/
theorem spec_C9 (reg : List (String × KType)) (rt : KType) (config : Value)
    (nm1 nm2 : String) (fs1 fs2 : List (String × Value))
    (h1 : new_object reg rt config = .ok (Value.obj nm1 fs1))
    (h2 : new_object reg rt config = .ok (Value.obj nm2 fs2)) :
    nm1 = nm2 ∧ fs1 = fs2 ∧ ∀ k, lookupAssocS fs1 k = lookupAssocS fs2 k := by
  rw [h1] at h2
  injection h2 with h3
  injection h3 with h4 h5
  exact ⟨h4, h5, fun k => by rw [h5]⟩

/-- C9 witness: two identical sample builds agree field-for-field. -/
theorem spec_C9_witness :
    new_object demoReg demoPodType demoDoc
      = .ok (Value.obj "V1Pod"
          [("api_version", Value.str "v1"), ("kind", Value.str "Pod"),
            ("metadata", Value.obj "V1ObjectMeta" [("name", Value.str "x")])]) ∧
    ("V1Pod" = "V1Pod"
      ∧ ([("api_version", Value.str "v1"), ("kind", Value.str "Pod"),
            ("metadata", Value.obj "V1ObjectMeta" [("name", Value.str "x")])]
          : List (String × Value))
        = [("api_version", Value.str "v1"), ("kind", Value.str "Pod"),
            ("metadata", Value.obj "V1ObjectMeta" [("name", Value.str "x")])]
      ∧ ∀ k,
        lookupAssocS
          [("api_version", Value.str "v1"), ("kind", Value.str "Pod"),
            ("metadata", Value.obj "V1ObjectMeta" [("name", Value.str "x")])] k
        = lookupAssocS
          [("api_version", Value.str "v1"), ("kind", Value.str "Pod"),
            ("metadata", Value.obj "V1ObjectMeta" [("name", Value.str "x")])] k) :=
  ⟨rfl, spec_C9 demoReg demoPodType demoDoc _ _ _ _ rfl rfl⟩

/-- C10: document keys that appear as no descriptor external key are
ignored by `new_object`: removing them from the raw mapping does not
change the result at all (so they are never read, never an error, and
have no effect). -/
theorem spec_C10 (reg : List (String × KType)) (rt : KType)
    (kvs : List (Value × Value)) (s : String)
    (h : s ∉ rt.attribute_map.map Prod.snd) :
    new_object reg rt (Value.map kvs)
      = new_object reg rt (Value.map (removeKey s kvs)) := by
  rw [new_object_eq_buildFields, new_object_eq_buildFields]
  have hbf : buildFieldsWith (fun v t => castField reg v t) rt.types
      rt.attribute_map (Value.map kvs) []
    = buildFieldsWith (fun v t => castField reg v t) rt.types
      rt.attribute_map (Value.map (removeKey s kvs)) [] := by
    apply buildFieldsWith_congr_config
    intro ek hek
    have hne : ek ≠ s := fun hh => h (hh ▸ hek)
    simp only [pyGet]
    rw [pyLookup_removeKey hne]
  rw [hbf]

/-- C10 witness: an extra `zzz` key in the document changes nothing. -/
theorem spec_C10_witness :
    ("zzz" ∉ demoPodType.attribute_map.map Prod.snd) ∧
    new_object demoReg demoPodType
        (Value.map [(Value.str "apiVersion", Value.str "v1"),
          (Value.str "zzz", Value.int 9), (Value.str "kind", Value.str "Pod")])
      = new_object demoReg demoPodType
          (Value.map (removeKey "zzz"
            [(Value.str "apiVersion", Value.str "v1"),
              (Value.str "zzz", Value.int 9), (Value.str "kind", Value.str "Pod")])) ∧
    new_object demoReg demoPodType
        (Value.map [(Value.str "apiVersion", Value.str "v1"),
          (Value.str "zzz", Value.int 9), (Value.str "kind", Value.str "Pod")])
      = .ok (Value.obj "V1Pod"
          [("api_version", Value.str "v1"), ("kind", Value.str "Pod")]) :=
  ⟨by decide,
    spec_C10 demoReg demoPodType
      [(Value.str "apiVersion", Value.str "v1"), (Value.str "zzz", Value.int 9),
        (Value.str "kind", Value.str "Pod")] "zzz" (by decide),
    rfl⟩

/-- C6: the claim that each render call of a batch `load_path` sees the
objects of all previously processed documents is FALSE on the code: the
renderer context aliases the initial empty list, which the loop only ever
rebinds (`objs = objs + load_file(...)`) and never mutates, so every
render call observes the empty list.  Concretely, over two one-document
files the second render call observes `[]` even though the first file
already produced an object (which the Renderer documentation says should
be visible). -/
theorem spec_C6_bug :
    (load_path demoReg [[demoDoc], [demoDoc]]).1 = [[], []] ∧
    (load_path demoReg [[demoDoc], [demoDoc]]).2 = .ok [demoObj, demoObj] ∧
    loadDocs demoReg [demoDoc] = .ok [demoObj] ∧
    ([] : List Value) ≠ [demoObj] :=
  ⟨rfl, rfl, rfl, fun h => List.noConfusion h⟩

end Kubetest
